import Mathlib

/-!
Verification of the prompt-resolution core of `src/prompts/index.ts`.

The file shallowly embeds the three exported functions of that module —
`processPrompt`, `readPrompts` and `readProviderPromptMap` — as executable
Lean definitions, and proves properties of the resolution algorithm.

External collaborators (the path classifier `maybeFilePath`/`parsePathOrGlob`,
the glob provider `globSync`, the format handlers `process*File` and the
`isJavascriptFile` predicate) live outside the module and are modelled as an
abstract environment `Env`: the theorems quantify over every possible
behavior of these collaborators.  Logging (`logger.debug`, `logger.warn`) and
the no-variable diagnostic accumulation in `readPrompts` have no effect on
return values or thrown errors and are therefore elided.
-/

set_option autoImplicit false

namespace Promptfoo

/-- A reference to a callable attached to a prompt (the `function` field of a
`Prompt`).  Its internal structure is irrelevant to resolution, so it is
modelled as an opaque string token. -/
abbrev FunctionRef := String

/-- Runtime shape of a resolved prompt record.  The TypeScript declaration of
`Prompt` marks `label` as required, but `processPrompt` produces prompts via
unchecked casts (`prompt as Prompt`), so at runtime `label` may be absent;
the embedding therefore keeps it optional. -/
structure Prompt where
  raw : String
  label : Option String
  function : Option FunctionRef
deriving DecidableEq, Repr

/-- `Partial<Prompt>`: the input record before resolution; every field is
optional. -/
structure PromptPartial where
  raw : Option String
  label : Option String
  function : Option FunctionRef
deriving DecidableEq, Repr

/-- Result of `parsePathOrGlob(basePath, promptPath)` as destructured by
`processPrompt`. -/
structure ParsedPath where
  extension : Option String
  functionName : Option String
  isPathPattern : Bool
  filePath : String
deriving DecidableEq, Repr

/-- The external collaborators used by `processPrompt`, kept abstract:
the path classifier, the glob provider, the javascript-extension predicate
and the per-format file handlers.  Handlers are modelled as pure functions
`(filePath, promptPartial) → Prompt[]` per the collaborator contract. -/
structure Env where
  maybeFilePath : String → Bool
  parsePathOrGlob : String → String → ParsedPath
  globSync : String → List String
  isJavascriptFile : String → Bool
  processJsonFile : String → PromptPartial → List Prompt
  processJsonlFile : String → PromptPartial → List Prompt
  processJsFile : String → PromptPartial → Option String → List Prompt
  processMarkdownFile : String → PromptPartial → List Prompt
  processPythonFile : String → PromptPartial → Option String → List Prompt
  processTxtFile : String → PromptPartial → List Prompt
  processYamlFile : String → PromptPartial → List Prompt

/-- `filePath.replace(/\\/g, '/')`: path separators are normalized to forward
slashes before glob expansion. -/
def replaceBackslashes (s : String) : String :=
  String.mk (s.data.map (fun c => if c = '\\' then '/' else c))

/-- Modelled from the spec: `processString` (prompts/processors/string.ts) is
not under src/.  Literal-string processing wraps the raw text as a single
Prompt whose label defaults to the raw text when the input carries no label
(spec 4.2 step 3 and the Prompt invariant in spec section 3). -/
def processString (p : PromptPartial) : List Prompt :=
  [{ raw := p.raw.getD "", label := some (p.label.getD (p.raw.getD "")), function := none }]

/-- The format dispatch table: the chain of extension tests at the end of
`processPrompt` (lines 145-166 of src/prompts/index.ts).  The guard
`extension && isJavascriptFile(extension)` tests truthiness of the extension,
so an empty-string extension skips the javascript branch. -/
def dispatchByExtension (env : Env) (parsed : ParsedPath) (p : PromptPartial) : List Prompt :=
  match parsed.extension with
  | none => []
  | some ext =>
    if ext = ".json" then env.processJsonFile parsed.filePath p
    else if ext = ".jsonl" then env.processJsonlFile parsed.filePath p
    else if (ext != "") && env.isJavascriptFile ext then
      env.processJsFile parsed.filePath p parsed.functionName
    else if ext = ".md" then env.processMarkdownFile parsed.filePath p
    else if ext = ".py" then env.processPythonFile parsed.filePath p parsed.functionName
    else if ext = ".txt" then env.processTxtFile parsed.filePath p
    else if ext = ".yml" || ext = ".yaml" then env.processYamlFile parsed.filePath p
    else []

/-- Error message of the `invariant(typeof prompt.raw === 'string', ...)` at
the top of `processPrompt`.  In the embedding `raw` is `Option String`, so
the only violating value is `undefined`. -/
def invariantRawMsg : String :=
  "prompt.raw must be a string, but got undefined"

/-- The `for (const globbedFilePath of globbedPath)` accumulation loop of the
glob branch of `processPrompt`: resolve each matched path in order with the
supplied resolver, concatenating the batches; a thrown error propagates from
the first failing iteration. -/
def globLoop (resolve : String → Except String (List Prompt)) :
    List String → Except String (List Prompt)
  | [] => .ok []
  | fp :: rest =>
    match resolve fp with
    | .error e => .error e
    | .ok ps =>
      match globLoop resolve rest with
      | .error e => .error e
      | .ok more => .ok (ps ++ more)

/-- `processPrompt(prompt, basePath, maxRecursionDepth)` with the recursion
depth as the leading (structural) argument.  The source guards the glob
branch with `isPathPattern && maxRecursionDepth > 0` and recurses with
`maxRecursionDepth - 1`; here the depth test is realized by the `Nat`
pattern match (`0` versus `d + 1`), which is equivalent: at depth `0` the
glob branch is unreachable and the input falls through to extension
dispatch. -/
def processPromptD : Nat → Env → PromptPartial → String → Except String (List Prompt)
  | 0, env, p, basePath =>
    match p.raw with
    | none => .error invariantRawMsg
    | some raw =>
      if p.function.isSome then
        .ok [{ raw := raw, label := p.label, function := p.function }]
      else if env.maybeFilePath raw = false then
        .ok (processString p)
      else
        .ok (dispatchByExtension env (env.parsePathOrGlob basePath raw) p)
  | Nat.succ d, env, p, basePath =>
    match p.raw with
    | none => .error invariantRawMsg
    | some raw =>
      if p.function.isSome then
        .ok [{ raw := raw, label := p.label, function := p.function }]
      else if env.maybeFilePath raw = false then
        .ok (processString p)
      else
        let parsed := env.parsePathOrGlob basePath raw
        if parsed.isPathPattern then
          match globLoop
              (fun fp => processPromptD d env
                { raw := some fp, label := none, function := none } basePath)
              (env.globSync (replaceBackslashes parsed.filePath)) with
          | .error e => .error e
          | .ok prompts =>
            if prompts.isEmpty then .ok (processString p) else .ok prompts
        else
          .ok (dispatchByExtension env parsed p)

/-- `processPrompt` with the source's parameter order (the depth parameter
defaults to `1` at the call site in `readPrompts`). -/
def processPrompt (env : Env) (p : PromptPartial) (basePath : String)
    (maxRecursionDepth : Nat) : Except String (List Prompt) :=
  processPromptD maxRecursionDepth env p basePath

/-- Escaping performed by `JSON.stringify` on the characters that need it in
plain ASCII strings (quote and backslash). -/
def jsStringEscape (s : String) : String :=
  String.join (s.toList.map (fun c =>
    if c = '"' || c = '\\' then String.mk ['\\', c] else String.mk [c]))

/-- `JSON.stringify(prompt.raw)` as used in the `readPrompts` error message;
`JSON.stringify(undefined)` is `undefined`, which the template literal
renders as the text `undefined`. -/
def jsonStringify : Option String → String
  | none => "undefined"
  | some s => "\"" ++ jsStringEscape s ++ "\""

/-- Top-level input accepted by `readPrompts`: a bare string, a mixed list of
strings and partials, or a keyed mapping from label to text. -/
inductive PromptInput where
  | str : String → PromptInput
  | list : List (String ⊕ PromptPartial) → PromptInput
  | record : List (String × String) → PromptInput
deriving Repr

/-- Modelled from the spec: `normalizeInput` (prompts/utils.ts) is not under
src/.  Per spec 4.4, a bare string becomes a single-element list with that
string as `raw`; a sequence is mapped element-wise (strings become
`{raw: element}`, objects pass through); a keyed mapping becomes partials
with `label` the key and `raw` the value. -/
def normalizeInput : PromptInput → List PromptPartial
  | .str s => [{ raw := some s, label := none, function := none }]
  | .list xs => xs.map (fun x =>
      match x with
      | .inl s => { raw := some s, label := none, function := none }
      | .inr p => p)
  | .record kvs => kvs.map (fun kv =>
      { raw := some kv.2, label := some kv.1, function := none })

/-- The per-partial loop of `readPrompts`: resolve each partial at depth 1,
throw `There are no prompts in ...` when a batch comes back empty, otherwise
append the batch to the result. -/
def resolveAll (env : Env) (basePath : String) :
    List PromptPartial → Except String (List Prompt)
  | [] => .ok []
  | p :: rest =>
    match processPrompt env p basePath 1 with
    | .error e => .error e
    | .ok batch =>
      if batch.isEmpty then
        .error ("There are no prompts in " ++ jsonStringify p.raw)
      else
        match resolveAll env basePath rest with
        | .error e => .error e
        | .ok more => .ok (batch ++ more)

/-- `readPrompts(promptPathOrGlobs, basePath)`: normalize the input, then
resolve each partial in sequence.  The no-variable warning accumulation only
feeds `logger.warn` and is elided. -/
def readPrompts (env : Env) (input : PromptInput) (basePath : String) :
    Except String (List Prompt) :=
  resolveAll env basePath (normalizeInput input)

/-- A JSON-ish runtime value as it appears inside the `providers` list of the
configuration: a string, an array of strings (a `prompts` override), or an
object given as ordered key-value pairs. -/
inductive JsVal where
  | str : String → JsVal
  | strList : List String → JsVal
  | obj : List (String × JsVal) → JsVal
deriving Repr

/-- First-match lookup of a property in an object's pair list. -/
def lookupKey : List (String × JsVal) → String → Option JsVal
  | [], _ => none
  | (k, v) :: rest, key => if k = key then some v else lookupKey rest key

/-- Value of a decimal digit character, by code point. -/
def digitVal (c : Char) : Option Nat :=
  let n := c.toNat
  if 48 ≤ n ∧ n ≤ 57 then some (n - 48) else none

/-- Accumulating decimal parser over a character list. -/
def parseNatAux : List Char → Nat → Option Nat
  | [], acc => some acc
  | c :: cs, acc =>
    match digitVal c with
    | some d => parseNatAux cs (acc * 10 + d)
    | none => none

/-- Parse a string of decimal digits as a natural number. -/
def parseNat? (s : String) : Option Nat :=
  match s.data with
  | [] => none
  | l => parseNatAux l 0

/-- JavaScript property access `v[key]` for the values the mapper touches:
objects look keys up in order; arrays answer canonical numeric indices;
string primitives have none of the consulted properties. -/
def getProp (v : JsVal) (key : String) : Option JsVal :=
  match v with
  | .str _ => none
  | .strList l =>
    match parseNat? key with
    | some n => if toString n = key then (l.get? n).map JsVal.str else none
    | none => none
  | .obj pairs => lookupKey pairs key

/-- JavaScript truthiness of a possibly-absent value: `undefined` and the
empty string are falsy; arrays and objects are always truthy. -/
def jsTruthy : Option JsVal → Bool
  | none => false
  | some (.str s) => s != ""
  | some (.strList _) => true
  | some (.obj _) => true

/-- `Object.keys(v)`: key order for objects, index strings for arrays.  The
string case is unreachable here because `typeof provider === 'object'` filters
string entries before any key enumeration. -/
def jsKeys : JsVal → List String
  | .str _ => []
  | .strList l => (List.range l.length).map toString
  | .obj pairs => pairs.map (fun kv => kv.1)

/-- Conversion of a value to a property key when used as `ret[id]`. -/
def jsValToPropKey : JsVal → String
  | .str s => s
  | .strList l => String.intercalate "," l
  | .obj _ => "[object Object]"

/-- `ret[id] = v` on the insertion-ordered record `ret`: an existing key is
overwritten in place, a new key is appended. -/
def setKey {α : Type} : List (String × α) → String → α → List (String × α)
  | [], k, v => [(k, v)]
  | (k1, v1) :: rest, k, v =>
    if k1 = k then (k, v) :: rest else (k1, v1) :: setKey rest k v

/-- `rawProvider.prompts || allPrompts`.  `ProviderOptions.prompts` is typed
`string[]` in the source, so only array values act as overrides (arrays are
always truthy, including the empty array); any other value falls back to
`allPrompts`. -/
def promptsOverride (v : JsVal) (allPrompts : List (Option String)) :
    List (Option String) :=
  match getProp v "prompts" with
  | some (.strList l) => l.map some
  | _ => allPrompts

/-- Message of the `invariant(rawProvider.id, ...)` inside
`readProviderPromptMap`. -/
def invariantIdMsg : String :=
  "You must specify an `id` on the Provider when you override options.prompts"

/-- One iteration of the `for (const provider of config.providers)` loop.
Non-object entries (strings) are skipped.  When `provider.id` is truthy, the
entry is treated as `ProviderOptions`; the source re-checks
`invariant(rawProvider.id, ...)` inside this branch, which therefore can
never fire — the check is kept verbatim here.  Otherwise the entry is
treated as a `ProviderOptionsMap`: only the first key is consulted, and a
keyless object makes `rawProvider[Object.keys(rawProvider)[0]]` undefined,
so the subsequent `.id` access throws a TypeError. -/
def providerEntryStep (allPrompts : List (Option String))
    (ret : List (String × List (Option String))) (provider : JsVal) :
    Except String (List (String × List (Option String))) :=
  match provider with
  | .str _ => .ok ret
  | _ =>
    let idVal := getProp provider "id"
    if jsTruthy idVal then
      if jsTruthy idVal = false then
        .error invariantIdMsg
      else
        let v := promptsOverride provider allPrompts
        let ret1 := setKey ret (jsValToPropKey (idVal.getD (.str ""))) v
        let labelVal := getProp provider "label"
        if jsTruthy labelVal then
          .ok (setKey ret1 (jsValToPropKey (labelVal.getD (.str "")))
            (promptsOverride provider allPrompts))
        else
          .ok ret1
    else
      match jsKeys provider with
      | [] => .error "TypeError: Cannot read properties of undefined (reading 'id')"
      | originalId :: _ =>
        match getProp provider originalId with
        | none => .error "TypeError: Cannot read properties of undefined (reading 'id')"
        | some providerObject =>
          let innerId := getProp providerObject "id"
          let id := if jsTruthy innerId
                    then jsValToPropKey (innerId.getD (.str ""))
                    else originalId
          .ok (setKey ret id (promptsOverride providerObject allPrompts))

/-- The provider loop folded over the whole list. -/
def providerLoop (allPrompts : List (Option String)) :
    List JsVal → List (String × List (Option String)) →
    Except String (List (String × List (Option String)))
  | [], ret => .ok ret
  | p :: rest, ret =>
    match providerEntryStep allPrompts ret p with
    | .error e => .error e
    | .ok ret1 => providerLoop allPrompts rest ret1

/-- The `providers` field of the configuration: a provider identifier string,
a callable, or a heterogeneous list. -/
inductive ProvidersValue where
  | str : String → ProvidersValue
  | func : ProvidersValue
  | list : List JsVal → ProvidersValue
deriving Repr

/-- `readProviderPromptMap(config, parsedPrompts)`.  `!config.providers`
returns the empty record for an absent or falsy (empty-string) providers
value; `allPrompts` collects every parsed prompt's `label` (which can be
`undefined` at runtime); a string maps to all labels under itself, a
callable under the sentinel `"Custom function"`, and a list is folded by
`providerEntryStep`. -/
def readProviderPromptMap (providers : Option ProvidersValue)
    (parsedPrompts : List Prompt) :
    Except String (List (String × List (Option String))) :=
  match providers with
  | none => .ok []
  | some pv =>
    if (match pv with | .str s => s == "" | _ => false) then .ok []
    else
      let allPrompts := parsedPrompts.map (fun p => p.label)
      match pv with
      | .str s => .ok [(s, allPrompts)]
      | .func => .ok [("Custom function", allPrompts)]
      | .list l => providerLoop allPrompts l []

/-- Decidable equality of `Except` results, for evaluating the embedding on
concrete inputs. -/
instance {e a : Type} [DecidableEq e] [DecidableEq a] : DecidableEq (Except e a)
  | .ok x, .ok y =>
    if h : x = y then .isTrue (by rw [h]) else .isFalse (by intro hc; cases hc; exact h rfl)
  | .error x, .error y =>
    if h : x = y then .isTrue (by rw [h]) else .isFalse (by intro hc; cases hc; exact h rfl)
  | .ok _, .error _ => .isFalse (by intro hc; cases hc)
  | .error _, .ok _ => .isFalse (by intro hc; cases hc)

/-- A concrete collaborator environment used to evaluate the embedding:
every string is considered a possible file path; `*.txt` matches two text
files and `*.xyz` matches one file of unrecognized extension; the text
handler emits one prompt per file, every other handler emits nothing. -/
def env0 : Env :=
  { maybeFilePath := fun _ => true
    parsePathOrGlob := fun _ raw =>
      { extension := if raw = "a.txt" || raw = "b.txt" || raw = "*.txt" then some ".txt"
                     else if raw = "a.xyz" || raw = "*.xyz" then some ".xyz" else none
        functionName := none
        isPathPattern := raw = "*.txt" || raw = "*.xyz" || raw = "*.md"
        filePath := raw }
    globSync := fun pat =>
      if pat = "*.txt" then ["a.txt", "b.txt"]
      else if pat = "*.xyz" then ["a.xyz"] else []
    isJavascriptFile := fun _ => false
    processJsonFile := fun _ _ => []
    processJsonlFile := fun _ _ => []
    processJsFile := fun _ _ _ => []
    processMarkdownFile := fun _ _ => []
    processPythonFile := fun _ _ _ => []
    processTxtFile := fun fp _ => [{ raw := fp, label := some fp, function := none }]
    processYamlFile := fun _ _ => [] }

/-- A concrete environment in which nothing looks like a file path unless it
starts with `file:`, no extension is ever recognized, and no glob ever
matches. -/
def envLit : Env :=
  { maybeFilePath := fun s => s = "file:a" || s = "file:b"
    parsePathOrGlob := fun _ raw =>
      { extension := none, functionName := none, isPathPattern := false, filePath := raw }
    globSync := fun _ => []
    isJavascriptFile := fun _ => false
    processJsonFile := fun _ _ => []
    processJsonlFile := fun _ _ => []
    processJsFile := fun _ _ _ => []
    processMarkdownFile := fun _ _ => []
    processPythonFile := fun _ _ _ => []
    processTxtFile := fun _ _ => []
    processYamlFile := fun _ _ => [] }

theorem globLoop_ok_join (env : Env) (basePath : String) (d : Nat) :
    ∀ {paths : List String} {lists : List (List Prompt)},
    List.Forall₂ (fun fp l =>
      processPrompt env { raw := some fp, label := none, function := none } basePath d = .ok l)
      paths lists →
    globLoop (fun fp =>
        processPromptD d env { raw := some fp, label := none, function := none } basePath)
      paths = .ok lists.flatten := by
  intro paths lists h
  induction h with
  | nil => simp [globLoop]
  | cons h1 _ ih =>
    simp only [processPrompt] at h1
    simp [globLoop, h1, ih]

theorem processPrompt_glob_eq (env : Env) (p : PromptPartial) (basePath r : String) (d : Nat)
    (hraw : p.raw = some r) (hfn : p.function = none)
    (hmf : env.maybeFilePath r = true)
    (hpat : (env.parsePathOrGlob basePath r).isPathPattern = true) :
    processPrompt env p basePath (d + 1) =
      match globLoop (fun fp =>
          processPromptD d env { raw := some fp, label := none, function := none } basePath)
        (env.globSync (replaceBackslashes (env.parsePathOrGlob basePath r).filePath)) with
      | .error e => .error e
      | .ok prompts => if prompts.isEmpty then .ok (processString p) else .ok prompts := by
  simp [processPrompt, processPromptD, hraw, hfn, hmf, hpat]

theorem processPrompt_glob_join (env : Env) (p : PromptPartial) (basePath r : String)
    (d : Nat) (lists : List (List Prompt))
    (hraw : p.raw = some r) (hfn : p.function = none)
    (hmf : env.maybeFilePath r = true)
    (hpat : (env.parsePathOrGlob basePath r).isPathPattern = true)
    (hd : 0 < d)
    (hall : List.Forall₂ (fun fp l =>
        processPrompt env { raw := some fp, label := none, function := none }
          basePath (d - 1) = .ok l)
      (env.globSync (replaceBackslashes (env.parsePathOrGlob basePath r).filePath)) lists)
    (hne : lists.flatten ≠ []) :
    processPrompt env p basePath d = .ok lists.flatten := by
  obtain ⟨d, rfl⟩ : ∃ d2, d = d2 + 1 := ⟨d - 1, by omega⟩
  rw [processPrompt_glob_eq env p basePath r d hraw hfn hmf hpat]
  rw [globLoop_ok_join env basePath d (by simpa using hall)]
  simp [List.isEmpty_iff, hne]

theorem processPrompt_dispatch_eq (env : Env) (p : PromptPartial) (basePath r : String)
    (d : Nat) (hraw : p.raw = some r) (hfn : p.function = none)
    (hmf : env.maybeFilePath r = true)
    (hng : ¬((env.parsePathOrGlob basePath r).isPathPattern = true ∧ 0 < d)) :
    processPrompt env p basePath d =
      .ok (dispatchByExtension env (env.parsePathOrGlob basePath r) p) := by
  match d with
  | 0 => simp [processPrompt, processPromptD, hraw, hfn, hmf]
  | d + 1 =>
    have hpat : (env.parsePathOrGlob basePath r).isPathPattern = false := by
      rcases h : (env.parsePathOrGlob basePath r).isPathPattern with _ | _
      · rfl
      · exact absurd ⟨h, by omega⟩ hng
    simp [processPrompt, processPromptD, hraw, hfn, hmf, hpat]

/-- Claim C1 counterexample: in `env0`, the glob pattern `*.xyz` matches the
single concrete file `a.xyz`, and resolving that file individually at depth
budget 0 yields zero prompts, so the concatenation of the per-file results is
empty; `processPrompt` nevertheless returns one literal-string prompt, not
that empty concatenation. -/
theorem processPrompt_glob_concat_cex :
    env0.maybeFilePath "*.xyz" = true ∧
    (env0.parsePathOrGlob "" "*.xyz").isPathPattern = true ∧
    env0.globSync (replaceBackslashes (env0.parsePathOrGlob "" "*.xyz").filePath) = ["a.xyz"] ∧
    processPrompt env0 { raw := some "a.xyz", label := none, function := none } "" 0 = .ok [] ∧
    processPrompt env0 { raw := some "*.xyz", label := none, function := none } "" 1 =
      .ok [{ raw := "*.xyz", label := some "*.xyz", function := none }] ∧
    processPrompt env0 { raw := some "*.xyz", label := none, function := none } "" 1 ≠
      .ok (List.flatten [[]]) := by
  decide

/-- Claim C1 (amended): for every prompt whose raw is a glob pattern, with
depth budget positive, matching files of which at least one resolves to a
nonempty prompt list, `processPrompt` returns the concatenation, in match
order, of the results of resolving each matched concrete file individually
with depth budget decremented by one. -/
theorem processPrompt_glob_concat (env : Env) (p : PromptPartial) (basePath r : String)
    (d : Nat) (lists : List (List Prompt))
    (hraw : p.raw = some r) (hfn : p.function = none)
    (hmf : env.maybeFilePath r = true)
    (hpat : (env.parsePathOrGlob basePath r).isPathPattern = true)
    (hd : 0 < d)
    (hall : List.Forall₂ (fun fp l =>
        processPrompt env { raw := some fp, label := none, function := none }
          basePath (d - 1) = .ok l)
      (env.globSync (replaceBackslashes (env.parsePathOrGlob basePath r).filePath)) lists)
    (hne : lists.flatten ≠ []) :
    processPrompt env p basePath d = .ok lists.flatten :=
  processPrompt_glob_join env p basePath r d lists hraw hfn hmf hpat hd hall hne

theorem processPrompt_glob_concat_witness :
    processPrompt env0 { raw := some "*.txt", label := none, function := none } "" 1 =
      .ok (List.flatten
        [[{ raw := "a.txt", label := some "a.txt", function := none }],
         [{ raw := "b.txt", label := some "b.txt", function := none }]]) := by
  refine processPrompt_glob_concat env0 _ "" "*.txt" 1 _ rfl rfl (by decide) (by decide)
    (by decide) ?_ (by decide)
  rw [show env0.globSync (replaceBackslashes (env0.parsePathOrGlob "" "*.txt").filePath) =
    ["a.txt", "b.txt"] from by decide]
  exact .cons (by decide) (.cons (by decide) .nil)

/-- Claim C2: for every prompt whose raw is a glob pattern (with positive
depth budget) for which expansion matches zero paths, `processPrompt`
returns exactly one Prompt obtained by literal-string processing of the
original raw input, rather than raising an error. -/
theorem processPrompt_glob_nomatch_literal (env : Env) (p : PromptPartial) (basePath r : String)
    (d : Nat) (hraw : p.raw = some r) (hfn : p.function = none)
    (hmf : env.maybeFilePath r = true)
    (hpat : (env.parsePathOrGlob basePath r).isPathPattern = true)
    (hd : 0 < d)
    (hglob : env.globSync (replaceBackslashes (env.parsePathOrGlob basePath r).filePath) = []) :
    processPrompt env p basePath d =
      .ok [{ raw := r, label := some (p.label.getD r), function := none }] := by
  obtain ⟨d, rfl⟩ : ∃ d2, d = d2 + 1 := ⟨d - 1, by omega⟩
  rw [processPrompt_glob_eq env p basePath r d hraw hfn hmf hpat, hglob]
  simp [globLoop, processString, hraw]

theorem processPrompt_glob_nomatch_literal_witness :
    processPrompt env0 { raw := some "*.md", label := none, function := none } "" 1 =
      .ok [{ raw := "*.md", label := some "*.md", function := none }] :=
  processPrompt_glob_nomatch_literal env0 _ "" "*.md" 1 rfl rfl (by decide) (by decide)
    (by decide) (by decide)

/-- Claim C9: when `processPrompt` expands a glob pattern, each recursive
call receives a fresh partial containing only the matched path as raw (label
and function dropped), so the prompts produced from the matched files do not
depend on the label of the original partial. -/
theorem processPrompt_glob_fresh_partial (env : Env) (basePath r : String)
    (lbl lbl2 : Option String) (d : Nat) (lists : List (List Prompt))
    (hmf : env.maybeFilePath r = true)
    (hpat : (env.parsePathOrGlob basePath r).isPathPattern = true)
    (hd : 0 < d)
    (hall : List.Forall₂ (fun fp l =>
        processPrompt env { raw := some fp, label := none, function := none }
          basePath (d - 1) = .ok l)
      (env.globSync (replaceBackslashes (env.parsePathOrGlob basePath r).filePath)) lists)
    (hne : lists.flatten ≠ []) :
    processPrompt env { raw := some r, label := lbl, function := none } basePath d =
      .ok lists.flatten ∧
    processPrompt env { raw := some r, label := lbl, function := none } basePath d =
      processPrompt env { raw := some r, label := lbl2, function := none } basePath d := by
  have h1 := processPrompt_glob_join env { raw := some r, label := lbl, function := none }
    basePath r d lists rfl rfl hmf hpat hd hall hne
  have h2 := processPrompt_glob_join env { raw := some r, label := lbl2, function := none }
    basePath r d lists rfl rfl hmf hpat hd hall hne
  exact ⟨h1, h1.trans h2.symm⟩

theorem processPrompt_glob_fresh_partial_witness :
    processPrompt env0 { raw := some "*.txt", label := some "L1", function := none } "" 1 =
      .ok (List.flatten
        [[{ raw := "a.txt", label := some "a.txt", function := none }],
         [{ raw := "b.txt", label := some "b.txt", function := none }]]) ∧
    processPrompt env0 { raw := some "*.txt", label := some "L1", function := none } "" 1 =
      processPrompt env0 { raw := some "*.txt", label := some "L2", function := none } "" 1 := by
  refine processPrompt_glob_fresh_partial env0 "" "*.txt" (some "L1") (some "L2") 1 _
    (by decide) (by decide) (by decide) ?_ (by decide)
  rw [show env0.globSync (replaceBackslashes (env0.parsePathOrGlob "" "*.txt").filePath) =
    ["a.txt", "b.txt"] from by decide]
  exact .cons (by decide) (.cons (by decide) .nil)

/-- Claim C4: a prompt whose raw is a glob pattern, evaluated with depth
budget 0, is dispatched as a literal path by its extension, and is never
re-expanded against the file system: the result does not depend on the glob
provider at all. -/
theorem processPrompt_depth0_dispatch (env : Env) (p : PromptPartial) (basePath r : String)
    (hraw : p.raw = some r) (hfn : p.function = none)
    (hmf : env.maybeFilePath r = true)
    (hpat : (env.parsePathOrGlob basePath r).isPathPattern = true) :
    processPrompt env p basePath 0 =
      .ok (dispatchByExtension env (env.parsePathOrGlob basePath r) p) ∧
    ∀ g, processPrompt { env with globSync := g } p basePath 0 =
      processPrompt env p basePath 0 := by
  have h1 := processPrompt_dispatch_eq env p basePath r 0 hraw hfn hmf (by omega)
  refine ⟨h1, fun g => ?_⟩
  have h2 := processPrompt_dispatch_eq { env with globSync := g } p basePath r 0 hraw hfn hmf
    (by omega)
  exact h2.trans h1.symm

theorem processPrompt_depth0_dispatch_witness :
    processPrompt env0 { raw := some "*.txt", label := none, function := none } "" 0 =
      .ok (dispatchByExtension env0 (env0.parsePathOrGlob "" "*.txt")
        { raw := some "*.txt", label := none, function := none }) ∧
    processPrompt { env0 with globSync := fun _ => ["q.txt"] }
        { raw := some "*.txt", label := none, function := none } "" 0 =
      processPrompt env0 { raw := some "*.txt", label := none, function := none } "" 0 ∧
    dispatchByExtension env0 (env0.parsePathOrGlob "" "*.txt")
        { raw := some "*.txt", label := none, function := none } =
      [{ raw := "*.txt", label := some "*.txt", function := none }] := by
  have h := processPrompt_depth0_dispatch env0
    { raw := some "*.txt", label := none, function := none } "" "*.txt" rfl rfl
    (by decide) (by decide)
  exact ⟨h.1, h.2 (fun _ => ["q.txt"]), by decide⟩

/-- Claim C7: a prompt classified as a file reference whose extension is
absent or matches no entry of the format dispatch table (and which is not
glob-expanded, i.e. it is a concrete path or the depth budget is exhausted)
resolves to the empty sequence rather than raising an error. -/
theorem processPrompt_unknown_extension_empty (env : Env) (p : PromptPartial)
    (basePath r : String) (d : Nat)
    (hraw : p.raw = some r) (hfn : p.function = none)
    (hmf : env.maybeFilePath r = true)
    (hng : ¬((env.parsePathOrGlob basePath r).isPathPattern = true ∧ 0 < d))
    (hext : ∀ e, (env.parsePathOrGlob basePath r).extension = some e →
      e ≠ ".json" ∧ e ≠ ".jsonl" ∧ e ≠ ".md" ∧ e ≠ ".py" ∧ e ≠ ".txt" ∧
      e ≠ ".yml" ∧ e ≠ ".yaml" ∧ env.isJavascriptFile e = false) :
    processPrompt env p basePath d = .ok [] := by
  rw [processPrompt_dispatch_eq env p basePath r d hraw hfn hmf hng]
  rcases he : (env.parsePathOrGlob basePath r).extension with _ | e
  · simp [dispatchByExtension, he]
  · obtain ⟨h1, h2, h3, h4, h5, h6, h7, h8⟩ := hext e he
    simp [dispatchByExtension, he, h1, h2, h3, h4, h5, h6, h7, h8]

theorem processPrompt_unknown_extension_empty_witness :
    processPrompt envLit { raw := some "file:a", label := none, function := none } "" 1 =
      .ok [] := by
  refine processPrompt_unknown_extension_empty envLit _ "" "file:a" 1 rfl rfl (by decide)
    (by decide) ?_
  intro e h
  exact Option.noConfusion h

/-- Claim C8: a prompt partial with a populated function field (and a string
raw) is terminal: `processPrompt` returns exactly the one-element list
containing that partial unchanged; the result mentions no collaborator, so
nothing is classified, globbed, or dispatched. -/
theorem processPrompt_function_terminal (env : Env) (p : PromptPartial) (basePath : String)
    (d : Nat) (r : String) (f : FunctionRef)
    (hraw : p.raw = some r) (hfn : p.function = some f) :
    processPrompt env p basePath d = .ok [{ raw := r, label := p.label, function := some f }] := by
  match d with
  | 0 => simp [processPrompt, processPromptD, hraw, hfn]
  | d + 1 => simp [processPrompt, processPromptD, hraw, hfn]

theorem processPrompt_function_terminal_witness :
    processPrompt env0 { raw := some "x", label := some "L", function := some "f" } "" 1 =
      .ok [{ raw := "x", label := some "L", function := some "f" }] :=
  processPrompt_function_terminal env0 _ "" 1 "x" "f" rfl rfl

theorem resolveAll_ok (env : Env) (basePath : String) :
    ∀ {ps : List PromptPartial} {lists : List (List Prompt)},
    List.Forall₂ (fun q l => processPrompt env q basePath 1 = .ok l ∧ l ≠ [])
      ps lists →
    resolveAll env basePath ps = .ok lists.flatten := by
  intro ps lists h
  induction h with
  | nil => simp [resolveAll]
  | cons h1 _ ih => simp [resolveAll, h1.1, List.isEmpty_iff, h1.2, ih]

theorem resolveAll_error (env : Env) (basePath : String) :
    ∀ (pre : List PromptPartial) (q : PromptPartial) (post : List PromptPartial),
    (∀ p2 ∈ pre, ∃ l, processPrompt env p2 basePath 1 = .ok l ∧ l ≠ []) →
    processPrompt env q basePath 1 = .ok [] →
    resolveAll env basePath (pre ++ q :: post) =
      .error ("There are no prompts in " ++ jsonStringify q.raw) := by
  intro pre q post hpre hq
  induction pre with
  | nil => simp [resolveAll, hq]
  | cons a pre ih =>
    obtain ⟨l, hl, hlne⟩ := hpre a (by simp)
    have ih2 := ih (fun p2 hp2 => hpre p2 (by simp [hp2]))
    simp [resolveAll, hl, List.isEmpty_iff, hlne, ih2]

/-- Claim C3: `readPrompts` raises an error naming the offending element's
raw value whenever a normalized input partial (all earlier ones resolving
successfully) resolves to zero prompts; on an all-successful input it
returns the prompts in input order with each partial's own expansions kept
contiguous (the flattening of the per-partial batches). -/
theorem readPrompts_batch :
    (∀ (env : Env) (input : PromptInput) (basePath : String)
      (pre post : List PromptPartial) (q : PromptPartial),
      normalizeInput input = pre ++ q :: post →
      (∀ p2 ∈ pre, ∃ l, processPrompt env p2 basePath 1 = .ok l ∧ l ≠ []) →
      processPrompt env q basePath 1 = .ok [] →
      readPrompts env input basePath =
        .error ("There are no prompts in " ++ jsonStringify q.raw)) ∧
    (∀ (env : Env) (input : PromptInput) (basePath : String) (lists : List (List Prompt)),
      List.Forall₂ (fun q l => processPrompt env q basePath 1 = .ok l ∧ l ≠ [])
        (normalizeInput input) lists →
      readPrompts env input basePath = .ok lists.flatten) := by
  constructor
  · intro env input basePath pre post q hnorm hpre hq
    rw [readPrompts, hnorm]
    exact resolveAll_error env basePath pre q post hpre hq
  · intro env input basePath lists h
    rw [readPrompts]
    exact resolveAll_ok env basePath h

theorem readPrompts_batch_witness :
    readPrompts envLit
        (.list [.inl "hello", .inr { raw := some "file:a", label := none, function := none }])
        "" =
      .error ("There are no prompts in " ++
        jsonStringify ({ raw := some "file:a", label := none, function := none } :
          PromptPartial).raw) ∧
    readPrompts envLit (.str "hello") "" =
      .ok (List.flatten [[{ raw := "hello", label := some "hello", function := none }]]) := by
  constructor
  · refine readPrompts_batch.1 envLit _ ""
      [{ raw := some "hello", label := none, function := none }] []
      { raw := some "file:a", label := none, function := none } (by decide) ?_ (by decide)
    intro p2 hp2
    have hp : p2 = { raw := some "hello", label := none, function := none } := by
      simpa using hp2
    exact ⟨[{ raw := "hello", label := some "hello", function := none }],
      by rw [hp]; decide, by decide⟩
  · refine readPrompts_batch.2 envLit _ "" _ ?_
    exact .cons ⟨by decide, by decide⟩ .nil

/-- Claim C5 (the code at the failing input): a provider-list object entry
that overrides prompts but declares no identifier does not make
`readProviderPromptMap` raise the `You must specify an id` error; the
invariant guarding it sits inside `if (provider.id)` and is unreachable, so
the entry is silently treated as a keyed mapping whose first key is the
literal string `prompts`, mapped to all labels. -/
theorem readProviderPromptMap_missing_id_no_error :
    readProviderPromptMap (some (.list [.obj [("prompts", .strList ["p1"])]]))
        [{ raw := "r1", label := some "l1", function := none }] =
      .ok [("prompts", [some "l1"])] := by
  decide

/-- Claim C6: `readProviderPromptMap` returns the empty mapping when no
providers are configured; maps every resolved prompt's label under the
single identifier when providers is a (truthy) string; maps every label
under the sentinel identifier `Custom function` when providers is a
callable; and for a list entry with an explicit id and a prompts override,
maps that id to exactly the override list regardless of the full label
set. -/
theorem readProviderPromptMap_shapes :
    (∀ ps : List Prompt, readProviderPromptMap none ps = .ok []) ∧
    (∀ (s : String) (ps : List Prompt), s ≠ "" →
      readProviderPromptMap (some (.str s)) ps = .ok [(s, ps.map (fun p => p.label))]) ∧
    (∀ ps : List Prompt, readProviderPromptMap (some .func) ps =
      .ok [("Custom function", ps.map (fun p => p.label))]) ∧
    (∀ ps : List Prompt, readProviderPromptMap
        (some (.list [.obj [("id", .str "x"), ("prompts", .strList ["p1"])]])) ps =
      .ok [("x", [some "p1"])]) := by
  refine ⟨fun ps => rfl, fun s ps hs => ?_, fun ps => rfl, fun ps => rfl⟩
  simp [readProviderPromptMap, hs]

theorem readProviderPromptMap_shapes_witness :
    readProviderPromptMap none [{ raw := "r1", label := some "p1", function := none }] =
      .ok [] ∧
    ("providerA" ≠ "" ∧
      readProviderPromptMap (some (.str "providerA"))
          [{ raw := "r1", label := some "p1", function := none },
           { raw := "r2", label := some "p2", function := none }] =
        .ok [("providerA",
          ([{ raw := "r1", label := some "p1", function := none },
            { raw := "r2", label := some "p2", function := none }] : List Prompt).map
            (fun p => p.label))]) ∧
    readProviderPromptMap (some .func)
        [{ raw := "r1", label := some "p1", function := none }] =
      .ok [("Custom function",
        ([{ raw := "r1", label := some "p1", function := none }] : List Prompt).map
          (fun p => p.label))] ∧
    readProviderPromptMap
        (some (.list [.obj [("id", .str "x"), ("prompts", .strList ["p1"])]]))
        [{ raw := "r1", label := some "p1", function := none },
         { raw := "r2", label := some "p2", function := none }] =
      .ok [("x", [some "p1"])] :=
  ⟨readProviderPromptMap_shapes.1 _,
   ⟨by decide, readProviderPromptMap_shapes.2.1 "providerA" _ (by decide)⟩,
   readProviderPromptMap_shapes.2.2.1 _,
   readProviderPromptMap_shapes.2.2.2 _⟩

/-- Claim C10 counterexample: for a keyed-mapping entry whose inner object
carries a present but empty-string id, the identifier used is the outer
first key `k`, not the inner id `""`: the fallback is decided by JavaScript
truthiness, not by presence. -/
theorem readProviderPromptMap_keyed_empty_id_cex :
    getProp (.obj [("id", .str ""), ("prompts", .strList ["p"])]) "id" = some (.str "") ∧
    readProviderPromptMap
        (some (.list [.obj [("k", .obj [("id", .str ""), ("prompts", .strList ["p"])])]])) [] =
      .ok [("k", [some "p"])] ∧
    readProviderPromptMap
        (some (.list [.obj [("k", .obj [("id", .str ""), ("prompts", .strList ["p"])])]])) [] ≠
      .ok [("", [some "p"])] := by
  refine ⟨rfl, by decide, by decide⟩

/-- Claim C10 (amended): a provider-list object entry without a truthy id
field is treated as a keyed mapping of which only the first key is consulted
(any further keys are ignored), and the identifier used in the result is the
inner object's own id when that id is truthy, falling back to the first key
otherwise (in particular a present but empty-string inner id falls back). -/
theorem readProviderPromptMap_keyed_first_key (k : String) (v : JsVal)
    (rest : List (String × JsVal)) (ps : List Prompt)
    (hid : jsTruthy (getProp (.obj ((k, v) :: rest)) "id") = false) :
    readProviderPromptMap (some (.list [.obj ((k, v) :: rest)])) ps =
      .ok [(if jsTruthy (getProp v "id") = true
            then jsValToPropKey ((getProp v "id").getD (.str ""))
            else k,
            promptsOverride v (ps.map (fun p => p.label)))] := by
  simp only [readProviderPromptMap, providerLoop, providerEntryStep]
  rw [hid]
  simp only [Bool.false_eq_true, if_false, jsKeys]
  simp [getProp, lookupKey, setKey]

theorem readProviderPromptMap_keyed_first_key_witness :
    jsTruthy (getProp
      (.obj [("k", .obj [("prompts", .strList ["p"])]), ("z", .str "1")]) "id") = false ∧
    readProviderPromptMap
        (some (.list [.obj [("k", .obj [("prompts", .strList ["p"])]), ("z", .str "1")]]))
        [{ raw := "r1", label := some "l1", function := none }] =
      .ok [("k", [some "p"])] := by
  refine ⟨by decide, ?_⟩
  have h := readProviderPromptMap_keyed_first_key "k" (.obj [("prompts", .strList ["p"])])
    [("z", .str "1")] [{ raw := "r1", label := some "l1", function := none }] (by decide)
  simpa using h

end Promptfoo
